import Mathlib

/-!
Verification of the virgltrace tracing tool.

This file gives a shallow embedding of the three source files
(src/main.rs, src/ftrace.rs, src/sleep.rs) and proves or refutes the
frozen claims about the program.

The kernel filesystem is modelled by an oracle (structure World) that
answers, for every path, whether it exists, whether a write of a given
value succeeds, what a read returns, and whether a truncation succeeds.
Paths are lists of components.  The observable behaviour of the program
is a trace of actions (inductive Act): file writes, truncations, reads,
printed lines, sleeps and signal-handler manipulation.  A Rust panic is
modelled as an Option String carrying the panic message; a normal
return carries none.
-/

namespace VT

/-- Substring containment, the semantics of Rust str::contains with a
string needle. -/
def str_contains (hay needle : String) : Bool :=
  decide (List.IsInfix needle.toList hay.toList)

/-- Embedding of bool_to_str in src/main.rs: true maps to "1", false
to "0". -/
def bool_to_str (b : Bool) : String :=
  if b then "1" else "0"

/-- Embedding of struct Event in src/main.rs. -/
structure Event where
  subsystem : String
  name : Option String
  required : Bool
deriving DecidableEq, Repr

/-- Embedding of struct Category in src/main.rs. -/
structure Category where
  name : String
  description : String
  events : List Event
deriving DecidableEq, Repr

/-- The sched catalog entry of static CATEGORIES in src/main.rs. -/
def catSched : Category :=
  { name := "sched", description := "scheduler-related events",
    events :=
      [ { subsystem := "sched", name := some "sched_switch", required := true },
        { subsystem := "sched", name := some "sched_wakeup", required := true },
        { subsystem := "sched", name := some "sched_waking", required := false },
        { subsystem := "sched", name := some "sched_blocked_reason", required := false },
        { subsystem := "sched", name := some "sched_cpu_hotplug", required := false },
        { subsystem := "sched", name := some "sched_pi_setprio", required := false },
        { subsystem := "cgroup", name := none, required := false } ] }

/-- The freq catalog entry of static CATEGORIES in src/main.rs. -/
def catFreq : Category :=
  { name := "freq", description := "CPU frequency events",
    events :=
      [ { subsystem := "power", name := some "cpu_frequency", required := true },
        { subsystem := "power", name := some "clock_set_rate", required := false },
        { subsystem := "power", name := some "clock_disable", required := false },
        { subsystem := "power", name := some "clock_enable", required := false },
        { subsystem := "clk", name := some "clk_set_rate", required := false },
        { subsystem := "clk", name := some "clk_disable", required := false },
        { subsystem := "clk", name := some "clk_enable", required := false },
        { subsystem := "power", name := some "cpu_frequency_limits", required := false } ] }

/-- The idle catalog entry of static CATEGORIES in src/main.rs. -/
def catIdle : Category :=
  { name := "idle", description := "CPU idle state events",
    events :=
      [ { subsystem := "power", name := some "cpu_idle", required := true } ] }

/-- The irq catalog entry of static CATEGORIES in src/main.rs. -/
def catIrq : Category :=
  { name := "irq", description := "IRQ events",
    events :=
      [ { subsystem := "irq", name := none, required := true } ] }

/-- The drm catalog entry of static CATEGORIES in src/main.rs. -/
def catDrm : Category :=
  { name := "drm", description := "DRM vblank events",
    events :=
      [ { subsystem := "drm", name := none, required := true } ] }

/-- The fence catalog entry of static CATEGORIES in src/main.rs. -/
def catFence : Category :=
  { name := "fence", description := "DMA-FENCE events",
    events :=
      [ { subsystem := "dma_fence", name := none, required := true },
        { subsystem := "sync_trace", name := some "sync_timeline", required := true } ] }

/-- The virtio-gpu catalog entry of static CATEGORIES in src/main.rs. -/
def catVirtioGpu : Category :=
  { name := "virtio-gpu", description := "virtio-gpu GPU events",
    events :=
      [ { subsystem := "virtio_gpu", name := none, required := true } ] }

/-- The i915 catalog entry of static CATEGORIES in src/main.rs. -/
def catI915 : Category :=
  { name := "i915", description := "Intel GPU events",
    events :=
      [ { subsystem := "i915", name := some "i915_request_queue", required := true },
        { subsystem := "i915", name := some "i915_request_add", required := true },
        { subsystem := "i915", name := some "i915_request_retire", required := true },
        { subsystem := "i915", name := some "i915_request_wait_begin", required := true },
        { subsystem := "i915", name := some "i915_request_wait_end", required := true },
        { subsystem := "i915", name := some "intel_gpu_freq_change", required := true },
        { subsystem := "i915", name := some "i915_gem_evict", required := true },
        { subsystem := "i915", name := some "i915_gem_evict_node", required := true },
        { subsystem := "i915", name := some "i915_gem_evict_vm", required := true },
        { subsystem := "i915", name := some "i915_gem_shrink", required := true },
        { subsystem := "i915", name := some "i915_pipe_update_start", required := true },
        { subsystem := "i915", name := some "i915_pipe_update_end", required := true } ] }

/-- The kvm catalog entry of static CATEGORIES in src/main.rs. -/
def catKvm : Category :=
  { name := "kvm", description := "KVM events",
    events :=
      [ { subsystem := "kvm", name := some "kvm_entry", required := true },
        { subsystem := "kvm", name := some "kvm_exit", required := true },
        { subsystem := "kvm", name := some "kvm_userspace_exit", required := true },
        { subsystem := "kvm", name := some "kvm_mmio", required := true },
        { subsystem := "kvm", name := some "kvm_set_irq", required := true },
        { subsystem := "kvm", name := some "kvm_msi_set_irq", required := true } ] }

/-- The syscalls catalog entry of static CATEGORIES in src/main.rs
(its description reads "subsystem call events" in the source). -/
def catSyscalls : Category :=
  { name := "syscalls", description := "subsystem call events",
    events :=
      [ { subsystem := "syscalls", name := none, required := true } ] }

/-- Embedding of static CATEGORIES in src/main.rs, in declaration
order. -/
def CATEGORIES : List Category :=
  [catSched, catFreq, catIdle, catIrq, catDrm, catFence, catVirtioGpu,
   catI915, catKvm, catSyscalls]

/-- Observable actions of a program run: file writes, truncations,
reads, printed lines, plain sleeps, and the signal-handler operations
of src/sleep.rs.  Paths are lists of components. -/
inductive Act where
  | fwrite (p : List String) (v : String)
  | ftrunc (p : List String)
  | fread (p : List String)
  | print (s : String)
  | sleepSecs (n : Nat)
  | installIntHandler
  | condvarWait (secs : Nat)
  | restoreIntHandler
deriving DecidableEq, Repr

/-- Oracle for the kernel filesystem: for each path, whether it
exists, whether writing a given value succeeds, what reading returns
(none models an I/O error), and whether truncation succeeds. -/
structure World where
  pathExists : List String → Bool
  writeOk : List String → String → Bool
  readResult : List String → Option String
  truncateOk : List String → Bool

/-- The path probed by enable_category for an event: the directory
events/subsystem under the tracefs root. -/
def subsysPath (root : String) (e : Event) : List String :=
  [root, "events", e.subsystem]

/-- The enable file of an event: events/subsystem[/name]/enable under
the tracefs root, exactly the path built in enable_category. -/
def eventEnablePath (root : String) (e : Event) : List String :=
  [root, "events", e.subsystem] ++
    (match e.name with | some n => [n] | none => []) ++ ["enable"]

/-- The subsystem:name display string built for the "event ... is
missing" diagnostic in enable_category. -/
def prettyEvent (e : Event) : String :=
  match e.name with
  | some n => e.subsystem ++ ":" ++ n
  | none => e.subsystem

/-- Embedding of the event loop body of enable_category in
src/main.rs.  The Option String argument is the mutable
last_missing_subsystem variable; the result is the list of performed
actions and a Bool that is true for Ok(()) and false for an early
Err return. -/
def enableCatGo (w : World) (root : String) (en : Bool) :
    Option String → List Event → List Act × Bool
  | _, [] => ([], true)
  | lm, e :: rest =>
    if w.pathExists (subsysPath root e) then
      if w.writeOk (eventEnablePath root e) (bool_to_str en) then
        (Act.fwrite (eventEnablePath root e) (bool_to_str en) ::
           (enableCatGo w root en lm rest).1,
         (enableCatGo w root en lm rest).2)
      else if en then
        if e.required then
          ([Act.fwrite (eventEnablePath root e) (bool_to_str en),
            Act.print ("event " ++ prettyEvent e ++ " is missing")], false)
        else
          (Act.fwrite (eventEnablePath root e) (bool_to_str en) ::
             Act.print ("event " ++ prettyEvent e ++ " is missing") ::
             (enableCatGo w root en lm rest).1,
           (enableCatGo w root en lm rest).2)
      else
        (Act.fwrite (eventEnablePath root e) (bool_to_str en) ::
           (enableCatGo w root en lm rest).1,
         (enableCatGo w root en lm rest).2)
    else
      if en && (lm != some e.subsystem) then
        if e.required then
          ([Act.print ("subsystem " ++ e.subsystem ++ " is missing")], false)
        else
          (Act.print ("subsystem " ++ e.subsystem ++ " is missing") ::
             (enableCatGo w root en (some e.subsystem) rest).1,
           (enableCatGo w root en (some e.subsystem) rest).2)
      else
        if e.required then ([], false)
        else
          ((enableCatGo w root en lm rest).1,
           (enableCatGo w root en lm rest).2)

/-- Embedding of fn enable_category in src/main.rs:
last_missing_subsystem starts as None. -/
def enable_category (w : World) (root : String) (c : Category)
    (en : Bool) : List Act × Bool :=
  enableCatGo w root en none c.events

/-- Embedding of the per-category enabling loop of fn main in
src/main.rs (lines 480-499).  The argument list is the set of
command-line arguments; an explicitly named category whose
enable_category call fails panics with "failed to enable name",
stopping the loop; in implicit mode (no arguments) failures are
swallowed. -/
def enableLoop (w : World) (root : String) (args : List String) :
    List Category → List Act × Option String
  | [] => ([], none)
  | c :: rest =>
    if args.isEmpty then
      ((enable_category w root c true).1 ++
         (enableLoop w root args rest).1,
       (enableLoop w root args rest).2)
    else if args.contains c.name then
      if (enable_category w root c true).2 then
        ((enable_category w root c true).1 ++
           (enableLoop w root args rest).1,
         (enableLoop w root args rest).2)
      else
        ((enable_category w root c true).1,
         some ("failed to enable " ++ c.name))
    else
      enableLoop w root args rest

/-- Embedding of the terminal cleanup loop of fn main in src/main.rs
(lines 512-514): enable_category with enable=false on every category,
results ignored. -/
def cleanupLoop (w : World) (root : String) : List Category → List Act
  | [] => []
  | c :: rest => (enable_category w root c false).1 ++ cleanupLoop w root rest

/-- The candidate tracefs mount points of fn find_tracefs in
src/main.rs, in order. -/
def tracefs_dirs : List String :=
  ["/sys/kernel/tracing", "/sys/kernel/debug/tracing"]

/-- Embedding of fn find_tracefs in src/main.rs: the first candidate
directory whose trace file exists. -/
def find_tracefs (w : World) : Option String :=
  tracefs_dirs.find? (fun dir => w.pathExists [dir, "trace"])

/-- The ordered clock preference list of fn set_trace_clock in
src/main.rs. -/
def preferred_clocks : List String := ["boot", "mono", "global"]

/-- The first preferred clock that occurs as a substring of the
trace_clock file content, mirroring the loop of fn set_trace_clock. -/
def findPreferred (val : String) : List String → Option String
  | [] => none
  | c :: rest => if str_contains val c then some c else findPreferred val rest

/-- The write decision of fn set_trace_clock in src/main.rs given the
content read from trace_clock: none models the panic when no
preferred clock occurs in the content; some ws is a normal return
issuing exactly the writes in ws (the selected clock is written
unless its bracketed form marks it as already active). -/
def set_trace_clock_plan (val : String) : Option (List String) :=
  match findPreferred val preferred_clocks with
  | none => none
  | some c =>
    if str_contains val ("[" ++ c ++ "]") then some [] else some [c]

/-- Embedding of the option/buffer/clock/tracer/filter setup sequence
of fn main in src/main.rs (lines 466-478).  Each unwrap on a failed
operation is a panic carrying "unwrap failed"; the panic of
set_trace_clock when no preferred clock occurs carries
"explicit panic".  The record-tgid write falls back to print-tgid on
failure, as in the source. -/
def optionsPhase (w : World) (root : String) : List Act × Option String :=
  let pOv := [root, "options", "overwrite"]
  if !(w.writeOk pOv "1") then
    ([Act.fwrite pOv "1"], some "unwrap failed")
  else
    let pRt := [root, "options", "record-tgid"]
    let pPt := [root, "options", "print-tgid"]
    let acts1 :=
      if w.writeOk pRt "1" then [Act.fwrite pOv "1", Act.fwrite pRt "1"]
      else [Act.fwrite pOv "1", Act.fwrite pRt "1", Act.fwrite pPt "1"]
    if !(w.writeOk pRt "1") && !(w.writeOk pPt "1") then
      (acts1, some "unwrap failed")
    else
      let pBuf := [root, "buffer_size_kb"]
      if !(w.writeOk pBuf "32768") then
        (acts1 ++ [Act.fwrite pBuf "32768"], some "unwrap failed")
      else
        let pClk := [root, "trace_clock"]
        let acts2 := acts1 ++ [Act.fwrite pBuf "32768", Act.fread pClk]
        match w.readResult pClk with
        | none => (acts2, some "unwrap failed")
        | some val =>
          match set_trace_clock_plan val with
          | none => (acts2, some "explicit panic")
          | some ws =>
            let acts3 := acts2 ++ ws.map (fun c => Act.fwrite pClk c)
            if !(ws.all (fun c => w.writeOk pClk c)) then
              (acts3, some "unwrap failed")
            else
              let pCt := [root, "current_tracer"]
              if !(w.writeOk pCt "nop") then
                (acts3 ++ [Act.fwrite pCt "nop"], some "unwrap failed")
              else
                let pFf := [root, "set_ftrace_filter"]
                let acts4 := acts3 ++ [Act.fwrite pCt "nop", Act.ftrunc pFf]
                if !(w.truncateOk pFf) then (acts4, some "unwrap failed")
                else (acts4, none)

/-- Embedding of lines 501-502 of fn main in src/main.rs: the
tracing_on write is unwrapped (panic on failure) and the clear_trace
result is discarded. -/
def postEnable (w : World) (root : String) : List Act × Option String :=
  let pOn := [root, "tracing_on"]
  if !(w.writeOk pOn "1") then
    ([Act.fwrite pOn "1"], some "unwrap failed")
  else
    ([Act.fwrite pOn "1", Act.ftrunc [root, "trace"]], none)

/-- Embedding of the capture step of fn main in src/main.rs (lines
504-505): a printed banner followed by a plain, uninterruptible
five-second thread sleep. -/
def captureActs : List Act :=
  [Act.print "tracing for 5 secs...", Act.sleepSecs 5]

/-- Embedding of lines 507-510 of fn main in src/main.rs: turn
tracing off (result discarded), dump the trace to tmp.trace via a
read of the trace file followed, when the read succeeds, by a write
of its content, and truncate the trace file; all results discarded. -/
def dumpPhase (w : World) (root : String) : List Act :=
  [Act.fwrite [root, "tracing_on"] "0",
   Act.print "saving the trace to tmp.trace...",
   Act.fread [root, "trace"]] ++
  (match w.readResult [root, "trace"] with
   | some buf => [Act.fwrite ["tmp.trace"] buf]
   | none => []) ++
  [Act.ftrunc [root, "trace"]]

/-- A whole run of fn main: the actions of each successive phase (a
phase that was never reached is empty) and the panic message, none
for a normal exit (process status 0). -/
structure MainRun where
  usage : List Act := []
  options : List Act := []
  enables : List Act := []
  post : List Act := []
  capture : List Act := []
  dump : List Act := []
  cleanup : List Act := []
  panicMsg : Option String := none
deriving DecidableEq, Repr

/-- All actions of a run, in program order. -/
def MainRun.trace (r : MainRun) : List Act :=
  r.usage ++ r.options ++ r.enables ++ r.post ++ r.capture ++ r.dump ++
    r.cleanup

/-- The process exit status of a run: 0 on a normal return, the Rust
panic status 101 otherwise. -/
def MainRun.exitCode (r : MainRun) : Nat :=
  match r.panicMsg with
  | none => 0
  | some _ => 101

/-- The usage text printed by the -h branch of fn main in
src/main.rs, followed by one line per catalog category. -/
def usageActs (argv0 : String) : List Act :=
  Act.print ("Usage: " ++ argv0 ++ " [category1] [category2]...") ::
    Act.print "Available categories are:" ::
    CATEGORIES.map (fun c => Act.print ("  " ++ c.name ++ ": " ++ c.description))

/-- Embedding of fn main in src/main.rs over the filesystem oracle w;
argv0 is the program name and args the remaining command-line
arguments (the source collects them into a set and only tests
membership and emptiness).  A -h argument prints usage and returns
normally; a missing tracefs panics with "failed to locate tracefs"
before any other action; otherwise the phases run in order, each
panic cutting off the rest, and the cleanup loop runs only when no
earlier phase panicked. -/
def mainRun (w : World) (argv0 : String) (args : List String) : MainRun :=
  if args.contains "-h" then
    { usage := usageActs argv0 }
  else
    match find_tracefs w with
    | none => { panicMsg := some "failed to locate tracefs" }
    | some root =>
      if (optionsPhase w root).2.isSome then
        { options := (optionsPhase w root).1,
          panicMsg := (optionsPhase w root).2 }
      else if (enableLoop w root args CATEGORIES).2.isSome then
        { options := (optionsPhase w root).1,
          enables := (enableLoop w root args CATEGORIES).1,
          panicMsg := (enableLoop w root args CATEGORIES).2 }
      else if (postEnable w root).2.isSome then
        { options := (optionsPhase w root).1,
          enables := (enableLoop w root args CATEGORIES).1,
          post := (postEnable w root).1,
          panicMsg := (postEnable w root).2 }
      else
        { options := (optionsPhase w root).1,
          enables := (enableLoop w root args CATEGORIES).1,
          post := (postEnable w root).1,
          capture := captureActs,
          dump := dumpPhase w root,
          cleanup := cleanupLoop w root CATEGORIES }

/-- Classified I/O error kinds surfaced by std::io, as used by
src/ftrace.rs. -/
inductive ErrKind where
  | notFound
  | permissionDenied
  | other
deriving DecidableEq, Repr

/-- Embedding of pub struct Tracer in src/ftrace.rs: the bound
tracefs root and the latched (kind, path) pair of the last recorded
failure. -/
structure TracerSt where
  tracefs : List String
  lastErrKind : Option ErrKind
  lastErrPath : Option (List String)
deriving DecidableEq, Repr

/-- The filesystem system calls a Tracer operation performs. -/
inductive FsOp where
  | createF (p : List String)
  | openF (p : List String)
  | writeAllF (p : List String)
  | readAllF (p : List String)
  | metadataF (p : List String)
deriving DecidableEq, Repr

/-- Embedding of Tracer::new in src/ftrace.rs. -/
def TracerSt.new : TracerSt :=
  { tracefs := [], lastErrKind := none, lastErrPath := none }

/-- Embedding of Tracer::has_err in src/ftrace.rs. -/
def TracerSt.has_err (t : TracerSt) : Bool :=
  t.lastErrKind.isSome

/-- Embedding of Tracer::path_err in src/ftrace.rs: both latch fields
are overwritten unconditionally. -/
def TracerSt.path_err (t : TracerSt) (k : ErrKind) (p : List String) :
    TracerSt :=
  { t with lastErrKind := some k, lastErrPath := some p }

/-- Embedding of Tracer::path_truncate in src/ftrace.rs.  createRes
is the outcome of the File::create system call (none is success).
The operation is always attempted, whatever the current latch. -/
def TracerSt.path_truncate (t : TracerSt) (p : List String)
    (createRes : Option ErrKind) : TracerSt × List FsOp :=
  match createRes with
  | some k => (t.path_err k p, [FsOp.createF p])
  | none => (t, [FsOp.createF p])

/-- Embedding of Tracer::path_write in src/ftrace.rs: File::create
then write_all, each outcome supplied by the oracle (none is
success); a failure records its (kind, path) in the latch and the
function still returns normally. -/
def TracerSt.path_write (t : TracerSt) (p : List String)
    (createRes : Option ErrKind) (writeRes : Option ErrKind) :
    TracerSt × List FsOp :=
  match createRes with
  | some k => (t.path_err k p, [FsOp.createF p])
  | none =>
    match writeRes with
    | some k => (t.path_err k p, [FsOp.createF p, FsOp.writeAllF p])
    | none => (t, [FsOp.createF p, FsOp.writeAllF p])

/-- Embedding of Tracer::path_read in src/ftrace.rs: File::open then
read_to_string.  The String component is the value returned to the
caller: the file content on success and the empty string a failure
leaves in the freshly created buffer. -/
def TracerSt.path_read (t : TracerSt) (p : List String)
    (openRes : Option ErrKind) (readRes : Except ErrKind String) :
    TracerSt × String × List FsOp :=
  match openRes with
  | some k => (t.path_err k p, "", [FsOp.openF p])
  | none =>
    match readRes with
    | Except.error k => (t.path_err k p, "", [FsOp.openF p, FsOp.readAllF p])
    | Except.ok s => (t, s, [FsOp.openF p, FsOp.readAllF p])

/-- Embedding of pub fn sleep in src/sleep.rs as its action trace.
The function installs the SIGINT handler, performs one condition
variable wait with a timeout of secs seconds whose result is
discarded, then restores the default handler; the Bool argument tells
whether the wait was ended early by the signal, and the source
ignores it. -/
def sleepActs (secs : Nat) (_interrupted : Bool) : List Act :=
  [Act.installIntHandler, Act.condvarWait secs, Act.restoreIntHandler]

/-- A filesystem on which every operation succeeds and the active
trace clock is already boot. -/
def okWorld : World :=
  { pathExists := fun _ => true,
    writeOk := fun _ _ => true,
    readResult := fun _ => some "[boot] mono global",
    truncateOk := fun _ => true }

/-- A filesystem with no tracefs mounted: nothing exists. -/
def noFsWorld : World :=
  { pathExists := fun _ => false,
    writeOk := fun _ _ => true,
    readResult := fun _ => some "[boot] mono global",
    truncateOk := fun _ => true }

/-- A filesystem on which everything succeeds except that the
sync_trace subsystem directory is absent, so the required
sync_timeline event of the fence category is unavailable. -/
def noSyncWorld : World :=
  { pathExists := fun p => p != ["/sys/kernel/tracing", "events", "sync_trace"],
    writeOk := fun _ _ => true,
    readResult := fun _ => some "[boot] mono global",
    truncateOk := fun _ => true }

/-- Recognizer for file-write actions. -/
def isWriteAct : Act → Bool
  | Act.fwrite _ _ => true
  | _ => false

/-- Recognizer for the actions fn main can produce: everything except
the signal-handler actions of src/sleep.rs. -/
def isMainAct : Act → Bool
  | Act.installIntHandler => false
  | Act.condvarWait _ => false
  | Act.restoreIntHandler => false
  | _ => true

theorem enableCatGo_fwrite_subsys (w : World) (root : String) (en : Bool)
    (evs : List Event) :
    ∀ (lm : Option String) (p : List String) (v : String),
      Act.fwrite p v ∈ (enableCatGo w root en lm evs).1 →
      ∃ e, e ∈ evs ∧ p = eventEnablePath root e ∧
        w.pathExists (subsysPath root e) = true := by
  induction evs with
  | nil =>
    intro lm p v h
    simp [enableCatGo] at h
  | cons e rest ih =>
    intro lm p v h
    simp only [enableCatGo] at h
    by_cases hex : w.pathExists (subsysPath root e)
    · simp only [hex, if_true] at h
      by_cases hw : w.writeOk (eventEnablePath root e) (bool_to_str en)
      · simp only [hw, if_true] at h
        rcases List.mem_cons.mp h with h | h
        · injection h with h1 h2
          exact ⟨e, List.mem_cons_self e rest, h1, hex⟩
        · obtain ⟨e2, he2, hp, hpe⟩ := ih lm p v h
          exact ⟨e2, List.mem_cons_of_mem e he2, hp, hpe⟩
      · simp only [hw, if_false, Bool.not_eq_true] at h
        by_cases hen : en
        · simp only [hen, if_true] at h
          simp only [hen] at ih
          by_cases hrq : e.required
          · simp only [hrq, if_true] at h
            rcases List.mem_cons.mp h with h | h
            · injection h with h1 h2
              exact ⟨e, List.mem_cons_self e rest, h1, hex⟩
            · rcases List.mem_cons.mp h with h | h
              · exact absurd h (by simp)
              · simp at h
          · simp only [hrq, if_false] at h
            rcases List.mem_cons.mp h with h | h
            · injection h with h1 h2
              exact ⟨e, List.mem_cons_self e rest, h1, hex⟩
            · rcases List.mem_cons.mp h with h | h
              · exact absurd h (by simp)
              · obtain ⟨e2, he2, hp, hpe⟩ := ih lm p v h
                exact ⟨e2, List.mem_cons_of_mem e he2, hp, hpe⟩
        · simp only [hen, if_false] at h
          simp only [Bool.not_eq_true] at hen
          simp only [hen] at ih
          rcases List.mem_cons.mp h with h | h
          · injection h with h1 h2
            exact ⟨e, List.mem_cons_self e rest, h1, hex⟩
          · obtain ⟨e2, he2, hp, hpe⟩ := ih lm p v h
            exact ⟨e2, List.mem_cons_of_mem e he2, hp, hpe⟩
    · simp only [hex, if_false, Bool.not_eq_true] at h
      by_cases hwarn : (en && (lm != some e.subsystem)) = true
      · simp only [hwarn, if_true] at h
        by_cases hrq : e.required
        · simp only [hrq, if_true] at h
          rcases List.mem_cons.mp h with h | h
          · exact absurd h (by simp)
          · simp at h
        · simp only [hrq, if_false] at h
          rcases List.mem_cons.mp h with h | h
          · exact absurd h (by simp)
          · obtain ⟨e2, he2, hp, hpe⟩ := ih (some e.subsystem) p v h
            exact ⟨e2, List.mem_cons_of_mem e he2, hp, hpe⟩
      · simp only [hwarn, if_false] at h
        by_cases hrq : e.required
        · simp only [hrq, if_true] at h
          simp at h
        · simp only [hrq, if_false] at h
          obtain ⟨e2, he2, hp, hpe⟩ := ih lm p v h
          exact ⟨e2, List.mem_cons_of_mem e he2, hp, hpe⟩

theorem enableCatGo_required_missing (w : World) (root : String)
    (lm : Option String) (e : Event) (evs : List Event)
    (hreq : e.required = true)
    (hex : w.pathExists (subsysPath root e) = false) :
    (enableCatGo w root true lm (e :: evs)).1 =
      (if lm != some e.subsystem
       then [Act.print ("subsystem " ++ e.subsystem ++ " is missing")]
       else []) ∧
    (enableCatGo w root true lm (e :: evs)).2 = false := by
  simp only [enableCatGo, hex, hreq, if_false, Bool.true_and]
  by_cases hlm : (lm != some e.subsystem) = true
  · simp [hlm]
  · simp only [Bool.not_eq_true] at hlm
    simp [hlm]

theorem cleanupCat_cons_exists (w : World) (root : String)
    (lmc : Option String) (e : Event) (rest : List Event)
    (hex : w.pathExists (subsysPath root e) = true) :
    enableCatGo w root false lmc (e :: rest) =
      (Act.fwrite (eventEnablePath root e) "0" ::
         (enableCatGo w root false lmc rest).1,
       (enableCatGo w root false lmc rest).2) := by
  simp only [enableCatGo, hex, if_true]
  by_cases hw : w.writeOk (eventEnablePath root e) (bool_to_str false)
  · simp [hw, bool_to_str]
  · simp [hw, bool_to_str]

theorem cleanupCat_cons_missing (w : World) (root : String)
    (lmc : Option String) (e : Event) (rest : List Event)
    (hex : w.pathExists (subsysPath root e) = false) :
    enableCatGo w root false lmc (e :: rest) =
      (if e.required then ([], false)
       else ((enableCatGo w root false lmc rest).1,
             (enableCatGo w root false lmc rest).2)) := by
  simp only [enableCatGo, hex, Bool.false_and]
  by_cases hrq : e.required
  · simp [hrq]
  · simp [hrq]

theorem enableCatGo_cleanup_superset (w : World) (root : String)
    (evs : List Event) :
    ∀ (lm lmc : Option String) (p : List String) (v : String),
      Act.fwrite p v ∈ (enableCatGo w root true lm evs).1 →
      Act.fwrite p "0" ∈ (enableCatGo w root false lmc evs).1 := by
  induction evs with
  | nil =>
    intro lm lmc p v h
    simp [enableCatGo] at h
  | cons e rest ih =>
    intro lm lmc p v h
    by_cases hex : w.pathExists (subsysPath root e)
    · rw [cleanupCat_cons_exists w root lmc e rest hex]
      simp only [enableCatGo, hex, if_true] at h
      by_cases hw : w.writeOk (eventEnablePath root e) (bool_to_str true)
      · simp only [hw, if_true] at h
        rcases List.mem_cons.mp h with h | h
        · injection h with h1 h2
          exact List.mem_cons.mpr (Or.inl (by rw [h1]))
        · exact List.mem_cons.mpr (Or.inr (ih lm lmc p v h))
      · simp only [hw, if_false, if_true] at h
        by_cases hrq : e.required
        · simp only [hrq, if_true] at h
          rcases List.mem_cons.mp h with h | h
          · injection h with h1 h2
            exact List.mem_cons.mpr (Or.inl (by rw [h1]))
          · rcases List.mem_cons.mp h with h | h
            · exact absurd h (by simp)
            · simp at h
        · simp only [hrq, if_false] at h
          rcases List.mem_cons.mp h with h | h
          · injection h with h1 h2
            exact List.mem_cons.mpr (Or.inl (by rw [h1]))
          · rcases List.mem_cons.mp h with h | h
            · exact absurd h (by simp)
            · exact List.mem_cons.mpr (Or.inr (ih lm lmc p v h))
    · simp only [Bool.not_eq_true] at hex
      rw [cleanupCat_cons_missing w root lmc e rest hex]
      simp only [enableCatGo, hex, if_false] at h
      by_cases hrq : e.required
      · simp only [hrq, if_true] at h
        by_cases hwarn : (true && (lm != some e.subsystem)) = true
        · simp only [hwarn, if_true] at h
          simp at h
        · simp only [hwarn, if_false] at h
          simp at h
      · simp only [hrq, if_false] at h
        simp only [hrq, if_false]
        by_cases hwarn : (true && (lm != some e.subsystem)) = true
        · simp only [hwarn, if_true] at h
          rcases List.mem_cons.mp h with h | h
          · exact absurd h (by simp)
          · exact ih (some e.subsystem) lmc p v h
        · simp only [hwarn, if_false] at h
          exact ih lm lmc p v h

theorem cleanupCat_ignores_write_failures (w w2 : World) (root : String)
    (hpe : ∀ q, w.pathExists q = w2.pathExists q) (evs : List Event) :
    ∀ lm : Option String,
      enableCatGo w root false lm evs = enableCatGo w2 root false lm evs := by
  induction evs with
  | nil => intro lm; rfl
  | cons e rest ih =>
    intro lm
    by_cases hex : w.pathExists (subsysPath root e)
    · rw [cleanupCat_cons_exists w root lm e rest hex,
        cleanupCat_cons_exists w2 root lm e rest ((hpe _).symm.trans hex),
        ih lm]
    · simp only [Bool.not_eq_true] at hex
      rw [cleanupCat_cons_missing w root lm e rest hex,
        cleanupCat_cons_missing w2 root lm e rest ((hpe _).symm.trans hex),
        ih lm]

theorem cleanupLoop_ignores_write_failures (w w2 : World) (root : String)
    (hpe : ∀ q, w.pathExists q = w2.pathExists q) (cats : List Category) :
    cleanupLoop w root cats = cleanupLoop w2 root cats := by
  induction cats with
  | nil => rfl
  | cons c rest ih =>
    simp only [cleanupLoop, enable_category,
      cleanupCat_ignores_write_failures w w2 root hpe c.events none, ih]

theorem enableLoop_implicit_no_panic (w : World) (root : String)
    (cats : List Category) :
    (enableLoop w root [] cats).2 = none := by
  induction cats with
  | nil => rfl
  | cons c rest ih =>
    simp only [enableLoop, List.isEmpty_nil, if_true, ih]

theorem enableLoop_cleanup_superset (w : World) (root : String)
    (args : List String) (cats : List Category) :
    ∀ (p : List String) (v : String),
      Act.fwrite p v ∈ (enableLoop w root args cats).1 →
      Act.fwrite p "0" ∈ cleanupLoop w root cats := by
  induction cats with
  | nil =>
    intro p v h
    simp [enableLoop] at h
  | cons c rest ih =>
    intro p v h
    simp only [cleanupLoop]
    simp only [enableLoop] at h
    by_cases hemp : args.isEmpty
    · simp only [hemp, if_true] at h
      rcases List.mem_append.mp h with h | h
      · exact List.mem_append.mpr (Or.inl
          (enableCatGo_cleanup_superset w root c.events none none p v h))
      · exact List.mem_append.mpr (Or.inr (ih p v h))
    · simp only [hemp, if_false] at h
      by_cases hct : args.contains c.name
      · simp only [hct, if_true] at h
        by_cases hok : (enable_category w root c true).2
        · simp only [hok, if_true] at h
          rcases List.mem_append.mp h with h | h
          · exact List.mem_append.mpr (Or.inl
              (enableCatGo_cleanup_superset w root c.events none none p v h))
          · exact List.mem_append.mpr (Or.inr (ih p v h))
        · simp only [hok, if_false] at h
          exact List.mem_append.mpr (Or.inl
            (enableCatGo_cleanup_superset w root c.events none none p v h))
      · simp only [hct, if_false] at h
        exact List.mem_append.mpr (Or.inr (ih p v h))

theorem enableLoop_panic_from_named_category (w : World) (root : String)
    (args : List String) (cats : List Category) :
    ∀ m : String,
      (enableLoop w root args cats).2 = some m →
      ∃ c, c ∈ cats ∧ args.contains c.name = true ∧
        (enable_category w root c true).2 = false ∧
        m = "failed to enable " ++ c.name := by
  induction cats with
  | nil =>
    intro m h
    simp [enableLoop] at h
  | cons c rest ih =>
    intro m h
    simp only [enableLoop] at h
    by_cases hemp : args.isEmpty
    · simp only [hemp, if_true] at h
      obtain ⟨c2, hc2, hct, hfail, hm⟩ := ih m h
      exact ⟨c2, List.mem_cons_of_mem c hc2, hct, hfail, hm⟩
    · simp only [hemp, if_false] at h
      by_cases hct : args.contains c.name
      · simp only [hct, if_true] at h
        by_cases hok : (enable_category w root c true).2
        · simp only [hok, if_true] at h
          obtain ⟨c2, hc2, hct2, hfail, hm⟩ := ih m h
          exact ⟨c2, List.mem_cons_of_mem c hc2, hct2, hfail, hm⟩
        · simp only [hok, if_false] at h
          injection h with h1
          exact ⟨c, List.mem_cons_self c rest, hct,
            Bool.not_eq_true _ ▸ (by simpa using hok), h1.symm⟩
      · simp only [hct, if_false] at h
        obtain ⟨c2, hc2, hct2, hfail, hm⟩ := ih m h
        exact ⟨c2, List.mem_cons_of_mem c hc2, hct2, hfail, hm⟩

theorem enableCatGo_fail_required_unavailable (w : World) (root : String)
    (evs : List Event) :
    ∀ lm : Option String,
      (enableCatGo w root true lm evs).2 = false →
      ∃ e, e ∈ evs ∧ e.required = true ∧
        (w.pathExists (subsysPath root e) = false ∨
         w.writeOk (eventEnablePath root e) "1" = false) := by
  induction evs with
  | nil =>
    intro lm h
    simp [enableCatGo] at h
  | cons e rest ih =>
    intro lm h
    simp only [enableCatGo] at h
    by_cases hex : w.pathExists (subsysPath root e)
    · simp only [hex, if_true] at h
      by_cases hw : w.writeOk (eventEnablePath root e) (bool_to_str true)
      · simp only [hw, if_true] at h
        obtain ⟨e2, he2, hrq, hun⟩ := ih lm h
        exact ⟨e2, List.mem_cons_of_mem e he2, hrq, hun⟩
      · simp only [hw, if_false, if_true] at h
        by_cases hrq : e.required
        · refine ⟨e, List.mem_cons_self e rest, hrq, Or.inr ?_⟩
          simpa [bool_to_str] using hw
        · simp only [hrq, if_false] at h
          obtain ⟨e2, he2, hrq2, hun⟩ := ih lm h
          exact ⟨e2, List.mem_cons_of_mem e he2, hrq2, hun⟩
    · simp only [Bool.not_eq_true] at hex
      simp only [hex, if_false] at h
      by_cases hrq : e.required
      · exact ⟨e, List.mem_cons_self e rest, hrq, Or.inl hex⟩
      · simp only [hrq, if_false] at h
        by_cases hwarn : (true && (lm != some e.subsystem)) = true
        · simp only [hwarn, if_true] at h
          obtain ⟨e2, he2, hrq2, hun⟩ := ih (some e.subsystem) h
          exact ⟨e2, List.mem_cons_of_mem e he2, hrq2, hun⟩
        · simp only [hwarn, if_false] at h
          obtain ⟨e2, he2, hrq2, hun⟩ := ih lm h
          exact ⟨e2, List.mem_cons_of_mem e he2, hrq2, hun⟩

theorem enableLoop_fwrite_from_category (w : World) (root : String)
    (args : List String) (cats : List Category) :
    ∀ (p : List String) (v : String),
      Act.fwrite p v ∈ (enableLoop w root args cats).1 →
      ∃ c, c ∈ cats ∧
        Act.fwrite p v ∈ (enable_category w root c true).1 := by
  induction cats with
  | nil =>
    intro p v h
    simp [enableLoop] at h
  | cons c rest ih =>
    intro p v h
    simp only [enableLoop] at h
    by_cases hemp : args.isEmpty
    · simp only [hemp, if_true] at h
      rcases List.mem_append.mp h with h | h
      · exact ⟨c, List.mem_cons_self c rest, h⟩
      · obtain ⟨c2, hc2, hmem⟩ := ih p v h
        exact ⟨c2, List.mem_cons_of_mem c hc2, hmem⟩
    · simp only [hemp, if_false] at h
      by_cases hct : args.contains c.name
      · simp only [hct, if_true] at h
        by_cases hok : (enable_category w root c true).2
        · simp only [hok, if_true] at h
          rcases List.mem_append.mp h with h | h
          · exact ⟨c, List.mem_cons_self c rest, h⟩
          · obtain ⟨c2, hc2, hmem⟩ := ih p v h
            exact ⟨c2, List.mem_cons_of_mem c hc2, hmem⟩
        · simp only [hok, if_false] at h
          exact ⟨c, List.mem_cons_self c rest, h⟩
      · simp only [hct, if_false] at h
        obtain ⟨c2, hc2, hmem⟩ := ih p v h
        exact ⟨c2, List.mem_cons_of_mem c hc2, hmem⟩

theorem enableCatGo_main_acts (w : World) (root : String) (en : Bool)
    (evs : List Event) :
    ∀ lm : Option String,
      (enableCatGo w root en lm evs).1.all isMainAct = true := by
  induction evs with
  | nil => intro lm; rfl
  | cons e rest ih =>
    intro lm
    simp only [enableCatGo]
    by_cases hex : w.pathExists (subsysPath root e)
    · simp only [hex, if_true]
      by_cases hw : w.writeOk (eventEnablePath root e) (bool_to_str en)
      · simp only [hw, if_true, List.all_cons, ih lm]
        rfl
      · simp only [hw, if_false]
        by_cases hen : en
        · simp only [hen] at ih
          simp only [hen, if_true]
          by_cases hrq : e.required
          · simp [hrq, isMainAct]
          · simp only [Bool.not_eq_true] at hrq
            simp only [hrq, Bool.false_eq_true, if_false, List.all_cons, ih lm]
            rfl
        · simp only [Bool.not_eq_true] at hen
          simp only [hen] at ih
          simp only [hen, Bool.false_eq_true, if_false, List.all_cons, ih lm]
          rfl
    · simp only [hex, if_false]
      by_cases hwarn : (en && (lm != some e.subsystem)) = true
      · simp only [hwarn, if_true]
        by_cases hrq : e.required
        · simp [hrq, isMainAct]
        · simp only [hrq, Bool.false_eq_true, if_false, List.all_cons,
            ih (some e.subsystem)]
          rfl
      · simp only [hwarn, Bool.false_eq_true, if_false]
        by_cases hrq : e.required
        · simp [hrq]
        · simp only [hrq, Bool.false_eq_true, if_false, ih lm]

theorem enableLoop_main_acts (w : World) (root : String)
    (args : List String) (cats : List Category) :
    (enableLoop w root args cats).1.all isMainAct = true := by
  induction cats with
  | nil => rfl
  | cons c rest ih =>
    simp only [enableLoop]
    by_cases hemp : args.isEmpty
    · simp only [hemp, if_true, List.all_append, enable_category,
        enableCatGo_main_acts w root true c.events, ih, Bool.and_self]
    · simp only [Bool.not_eq_true] at hemp
      simp only [hemp, Bool.false_eq_true, if_false]
      by_cases hct : args.contains c.name
      · simp only [hct, if_true]
        simp only [enable_category]
        by_cases hok : (enableCatGo w root true none c.events).2
        · simp only [hok, if_true, List.all_append,
            enableCatGo_main_acts w root true c.events, ih, Bool.and_self]
        · simp only [Bool.not_eq_true] at hok
          simp only [hok, Bool.false_eq_true, if_false,
            enableCatGo_main_acts w root true c.events]
      · simp only [Bool.not_eq_true] at hct
        simp only [hct, Bool.false_eq_true, if_false, ih]

theorem cleanupLoop_main_acts (w : World) (root : String)
    (cats : List Category) :
    (cleanupLoop w root cats).all isMainAct = true := by
  induction cats with
  | nil => rfl
  | cons c rest ih =>
    simp [cleanupLoop, List.all_append, ih,
      enableCatGo_main_acts w root false c.events none, enable_category]

theorem optionsPhase_main_acts (w : World) (root : String) :
    (optionsPhase w root).1.all isMainAct = true := by
  unfold optionsPhase
  by_cases h1 : w.writeOk [root, "options", "overwrite"] "1"
  · simp only [h1, Bool.not_true, Bool.false_eq_true, if_false]
    by_cases h2 : w.writeOk [root, "options", "record-tgid"] "1"
    · simp only [h2, Bool.not_true, Bool.false_and, Bool.false_eq_true,
        if_false, if_true]
      by_cases h3 : w.writeOk [root, "buffer_size_kb"] "32768"
      · simp only [h3, Bool.not_true, Bool.false_eq_true, if_false]
        cases hrd : w.readResult [root, "trace_clock"] with
        | none => simp [isMainAct]
        | some val =>
          cases hplan : set_trace_clock_plan val with
          | none => simp [hplan, isMainAct]
          | some ws =>
            simp only [hplan]
            by_cases h4 : ws.all (fun c => w.writeOk [root, "trace_clock"] c)
            · simp only [h4, Bool.not_true, Bool.false_eq_true, if_false]
              by_cases h5 : w.writeOk [root, "current_tracer"] "nop"
              · simp only [h5, Bool.not_true, Bool.false_eq_true, if_false]
                by_cases h6 : w.truncateOk [root, "set_ftrace_filter"]
                · simp [h6, isMainAct, List.all_append, List.all_map,
                    Function.comp]
                · simp [h6, isMainAct, List.all_append, List.all_map,
                    Function.comp]
              · simp [h5, isMainAct, List.all_append, List.all_map,
                  Function.comp]
            · simp [h4, isMainAct, List.all_append, List.all_map,
                Function.comp]
      · simp [h3, isMainAct]
    · simp only [h2, Bool.not_false, Bool.true_and]
      by_cases h2b : w.writeOk [root, "options", "print-tgid"] "1"
      · simp only [h2b, Bool.not_true, Bool.false_eq_true, if_false]
        by_cases h3 : w.writeOk [root, "buffer_size_kb"] "32768"
        · simp only [h3, Bool.not_true, Bool.false_eq_true, if_false]
          cases hrd : w.readResult [root, "trace_clock"] with
          | none => simp [h2, isMainAct]
          | some val =>
            cases hplan : set_trace_clock_plan val with
            | none => simp [h2, hplan, isMainAct]
            | some ws =>
              simp only [hplan]
              by_cases h4 : ws.all (fun c => w.writeOk [root, "trace_clock"] c)
              · simp only [h4, Bool.not_true, Bool.false_eq_true, if_false]
                by_cases h5 : w.writeOk [root, "current_tracer"] "nop"
                · simp only [h5, Bool.not_true, Bool.false_eq_true, if_false]
                  by_cases h6 : w.truncateOk [root, "set_ftrace_filter"]
                  · simp [h2, h6, isMainAct, List.all_append, List.all_map,
                      Function.comp]
                  · simp [h2, h6, isMainAct, List.all_append, List.all_map,
                      Function.comp]
                · simp [h2, h5, isMainAct, List.all_append, List.all_map,
                    Function.comp]
              · simp [h2, h4, isMainAct, List.all_append, List.all_map,
                  Function.comp]
        · simp [h2, h3, isMainAct]
      · simp [h2, h2b, isMainAct]
  · simp [h1, isMainAct]

theorem postEnable_main_acts (w : World) (root : String) :
    (postEnable w root).1.all isMainAct = true := by
  unfold postEnable
  by_cases h1 : w.writeOk [root, "tracing_on"] "1"
  · simp [h1, isMainAct]
  · simp [h1, isMainAct]

theorem dumpPhase_main_acts (w : World) (root : String) :
    (dumpPhase w root).all isMainAct = true := by
  unfold dumpPhase
  cases hrd : w.readResult [root, "trace"] with
  | none => simp [isMainAct]
  | some buf => simp [isMainAct]

theorem mainRun_main_acts (w : World) (argv : String) (args : List String) :
    (mainRun w argv args).trace.all isMainAct = true := by
  unfold mainRun
  by_cases hh : args.contains "-h"
  · simp only [hh, if_true]
    simp [MainRun.trace, usageActs, isMainAct, List.all_map, Function.comp]
  · simp only [Bool.not_eq_true] at hh
    simp only [hh, Bool.false_eq_true, if_false]
    cases hft : find_tracefs w with
    | none => simp [MainRun.trace]
    | some root =>
      by_cases ho : (optionsPhase w root).2.isSome
      · simp only [ho, if_true]
        simp [MainRun.trace, optionsPhase_main_acts, List.all_append]
      · simp only [Bool.not_eq_true] at ho
        simp only [ho, Bool.false_eq_true, if_false]
        by_cases he : (enableLoop w root args CATEGORIES).2.isSome
        · simp only [he, if_true]
          simp [MainRun.trace, optionsPhase_main_acts,
            enableLoop_main_acts, List.all_append]
        · simp only [Bool.not_eq_true] at he
          simp only [he, Bool.false_eq_true, if_false]
          by_cases hp : (postEnable w root).2.isSome
          · simp only [hp, if_true]
            simp [MainRun.trace, optionsPhase_main_acts,
              enableLoop_main_acts, postEnable_main_acts, List.all_append]
          · simp only [Bool.not_eq_true] at hp
            simp only [hp, Bool.false_eq_true, if_false]
            simp [MainRun.trace, optionsPhase_main_acts,
              enableLoop_main_acts, postEnable_main_acts, captureActs,
              dumpPhase_main_acts, cleanupLoop_main_acts, List.all_append,
              isMainAct]

theorem all_main_acts_no_handler (l : List Act)
    (h : l.all isMainAct = true) :
    l.contains Act.installIntHandler = false ∧
    l.contains Act.restoreIntHandler = false := by
  constructor
  · by_contra hc
    simp only [Bool.not_eq_false] at hc
    have hmem : Act.installIntHandler ∈ l := by simpa using hc
    have := List.all_eq_true.mp h _ hmem
    simp [isMainAct] at this
  · by_contra hc
    simp only [Bool.not_eq_false] at hc
    have hmem : Act.restoreIntHandler ∈ l := by simpa using hc
    have := List.all_eq_true.mp h _ hmem
    simp [isMainAct] at this

/-- A tracefs filesystem mounted only at the debugfs fallback
location. -/
def debugOnlyWorld : World :=
  { pathExists := fun p => p == ["/sys/kernel/debug/tracing", "trace"],
    writeOk := fun _ _ => true,
    readResult := fun _ => some "[boot] mono global",
    truncateOk := fun _ => true }

/-- Claim C1, counterexample: in implicit mode (no command-line
arguments) on a kernel where the fence category's required
sync_timeline event is unavailable, the category still contributes an
enabled path: the dma_fence enable file, listed before the missing
required event, is written with the on value (and the write
succeeds), although the claim demands the category contribute zero
enabled paths. -/
theorem c1_counterexample :
    ((mainRun noSyncWorld "virgltrace" []).enables).contains
      (Act.fwrite ["/sys/kernel/tracing", "events", "dma_fence", "enable"]
        "1") = true ∧
    noSyncWorld.pathExists ["/sys/kernel/tracing", "events", "sync_trace"]
      = false ∧
    catFence ∈ CATEGORIES ∧
    ({ subsystem := "sync_trace", name := some "sync_timeline",
       required := true } : Event) ∈ catFence.events ∧
    noSyncWorld.writeOk
      ["/sys/kernel/tracing", "events", "dma_fence", "enable"] "1" = true ∧
    (enable_category noSyncWorld "/sys/kernel/tracing" catFence true).2
      = false ∧
    (mainRun noSyncWorld "virgltrace" []).panicMsg = none := by
  decide

/-- Claim C1, amended: in implicit mode, when a required event's
subsystem directory is missing, the category's traversal stops there:
the missing required event and every event after it contribute no
enable write and the category reports failure; events listed before
the first missing required event, however, may already have been
enabled (as the counterexample shows). -/
theorem c1_amended_required_missing_stops_category :
    ∀ (w : World) (root : String) (lm : Option String) (e : Event)
      (evs : List Event),
      e.required = true →
      w.pathExists (subsysPath root e) = false →
      (enableCatGo w root true lm (e :: evs)).1.filter isWriteAct = [] ∧
      (enableCatGo w root true lm (e :: evs)).2 = false := by
  intro w root lm e evs hreq hex
  obtain ⟨h1, h2⟩ := enableCatGo_required_missing w root lm e evs hreq hex
  refine ⟨?_, h2⟩
  rw [h1]
  by_cases hlm : (lm != some e.subsystem) = true
  · simp [hlm, isWriteAct]
  · simp only [Bool.not_eq_true] at hlm
    simp [hlm]

/-- Witness for the amended claim C1 at the concrete missing
sync_trace subsystem. -/
theorem c1_witness :
    (enableCatGo noSyncWorld "/sys/kernel/tracing" true none
      [{ subsystem := "sync_trace", name := some "sync_timeline",
         required := true }]).1.filter isWriteAct = [] ∧
    (enableCatGo noSyncWorld "/sys/kernel/tracing" true none
      [{ subsystem := "sync_trace", name := some "sync_timeline",
         required := true }]).2 = false :=
  c1_amended_required_missing_stops_category noSyncWorld
    "/sys/kernel/tracing" none
    { subsystem := "sync_trace", name := some "sync_timeline",
      required := true }
    [] (by decide) (by decide)

/-- Claim C2, counterexample: with the fence category explicitly
named and its required sync_timeline event unavailable, the event's
enable path is never written anywhere in the run (the claim demands
required paths be included unconditionally) and the session aborts
with a panic during the enable pass (the claim says a missing
required event does not abort the category). -/
theorem c2_counterexample :
    (mainRun noSyncWorld "virgltrace" ["fence"]).panicMsg =
      some "failed to enable fence" ∧
    ((mainRun noSyncWorld "virgltrace" ["fence"]).trace).contains
      (Act.fwrite
        ["/sys/kernel/tracing", "events", "sync_trace", "sync_timeline",
         "enable"] "1") = false ∧
    (mainRun noSyncWorld "virgltrace" ["fence"]).exitCode = 101 := by
  decide

/-- Claim C2, amended: explicit-mode enabling attempts an event's
on-write only when its subsystem directory exists (whether the event
is required or not); a category fails only because of a required
event that is unavailable (missing subsystem or failed write), never
because of an optional one; and the session panic of the enable loop
arises exactly from an explicitly named category whose enabling
failed, with message "failed to enable" followed by the category
name. -/
theorem c2_amended_explicit_behaviour :
    ∀ (w : World) (root : String) (c : Category) (args : List String)
      (p : List String) (v : String) (m : String),
      ((enable_category w root c true).2 = false →
        ∃ e, e ∈ c.events ∧ e.required = true ∧
          (w.pathExists (subsysPath root e) = false ∨
           w.writeOk (eventEnablePath root e) "1" = false)) ∧
      (Act.fwrite p v ∈ (enable_category w root c true).1 →
        ∃ e, e ∈ c.events ∧ p = eventEnablePath root e ∧
          w.pathExists (subsysPath root e) = true) ∧
      ((enableLoop w root args CATEGORIES).2 = some m →
        ∃ c2, c2 ∈ CATEGORIES ∧ args.contains c2.name = true ∧
          (enable_category w root c2 true).2 = false ∧
          m = "failed to enable " ++ c2.name) := by
  intro w root c args p v m
  refine ⟨?_, ?_, ?_⟩
  · intro h
    exact enableCatGo_fail_required_unavailable w root c.events none h
  · intro h
    exact enableCatGo_fwrite_subsys w root true c.events none p v h
  · intro h
    exact enableLoop_panic_from_named_category w root args CATEGORIES m h

/-- Witness for the amended claim C2 on the explicit fence run with
sync_trace missing. -/
theorem c2_witness :
    (∃ e, e ∈ catFence.events ∧ e.required = true ∧
      (noSyncWorld.pathExists (subsysPath "/sys/kernel/tracing" e)
         = false ∨
       noSyncWorld.writeOk (eventEnablePath "/sys/kernel/tracing" e) "1"
         = false)) ∧
    (∃ e, e ∈ catFence.events ∧
      ["/sys/kernel/tracing", "events", "dma_fence", "enable"] =
        eventEnablePath "/sys/kernel/tracing" e ∧
      noSyncWorld.pathExists (subsysPath "/sys/kernel/tracing" e)
        = true) ∧
    (∃ c2, c2 ∈ CATEGORIES ∧
      (["fence"] : List String).contains c2.name = true ∧
      (enable_category noSyncWorld "/sys/kernel/tracing" c2 true).2
        = false ∧
      "failed to enable fence" = "failed to enable " ++ c2.name) := by
  have h := c2_amended_explicit_behaviour noSyncWorld "/sys/kernel/tracing"
    catFence ["fence"]
    ["/sys/kernel/tracing", "events", "dma_fence", "enable"] "1"
    "failed to enable fence"
  exact ⟨h.1 (by decide), h.2.1 (by decide), h.2.2 (by decide)⟩

/-- Claim C3, counterexample: invoking with only the idle category
named, on a kernel where everything is available, the enable phase
writes exactly the idle path, yet the terminal cleanup loop writes
the off value to paths of every category — for instance the
scheduler sched_switch path that was never resolved or enabled — so
cleanup touches strictly more paths than were resolved. -/
theorem c3_counterexample :
    ((mainRun okWorld "virgltrace" ["idle"]).cleanup).contains
      (Act.fwrite
        ["/sys/kernel/tracing", "events", "sched", "sched_switch",
         "enable"] "0") = true ∧
    ((mainRun okWorld "virgltrace" ["idle"]).enables).contains
      (Act.fwrite
        ["/sys/kernel/tracing", "events", "sched", "sched_switch",
         "enable"] "1") = false ∧
    (mainRun okWorld "virgltrace" ["idle"]).enables =
      [Act.fwrite ["/sys/kernel/tracing", "events", "power", "cpu_idle",
         "enable"] "1"] := by
  decide

/-- Claim C3, amended: the terminal cleanup loop iterates every
catalog category (not only the enabled ones), so the off writes it
attempts form a superset of the on writes of the enable phase; its
control flow ignores individual write failures entirely (it depends
only on which subsystem directories exist); in implicit mode the
enable loop never panics, so cleanup is reached; but when the enable
loop panics on an explicitly named category, the process aborts and
the cleanup loop never runs. -/
theorem c3_amended_cleanup_behaviour :
    ∀ (w w2 : World) (root : String) (argv : String)
      (args : List String) (p : List String) (v m : String),
      (Act.fwrite p v ∈ (enableLoop w root args CATEGORIES).1 →
        Act.fwrite p "0" ∈ cleanupLoop w root CATEGORIES) ∧
      ((∀ q, w.pathExists q = w2.pathExists q) →
        cleanupLoop w root CATEGORIES = cleanupLoop w2 root CATEGORIES) ∧
      ((enableLoop w root [] CATEGORIES).2 = none) ∧
      (args.contains "-h" = false → find_tracefs w = some root →
        (optionsPhase w root).2 = none →
        (enableLoop w root args CATEGORIES).2 = some m →
        (mainRun w argv args).cleanup = [] ∧
        (mainRun w argv args).panicMsg = some m) := by
  intro w w2 root argv args p v m
  refine ⟨?_, ?_, ?_, ?_⟩
  · intro h
    exact enableLoop_cleanup_superset w root args CATEGORIES p v h
  · intro h
    exact cleanupLoop_ignores_write_failures w w2 root h CATEGORIES
  · exact enableLoop_implicit_no_panic w root CATEGORIES
  · intro hh hft hop hel
    unfold mainRun
    simp only [hh, Bool.false_eq_true, if_false, hft]
    simp [hop, hel]

/-- Witness for the amended claim C3: a concrete superset membership
on the all-available kernel, the implicit no-panic fact, and the
skipped cleanup of the panicking explicit fence run. -/
theorem c3_witness :
    Act.fwrite
      ["/sys/kernel/tracing", "events", "sched", "sched_switch",
       "enable"] "0" ∈ cleanupLoop okWorld "/sys/kernel/tracing"
        CATEGORIES ∧
    (enableLoop okWorld "/sys/kernel/tracing" [] CATEGORIES).2 = none ∧
    (mainRun noSyncWorld "virgltrace" ["fence"]).cleanup = [] ∧
    (mainRun noSyncWorld "virgltrace" ["fence"]).panicMsg =
      some "failed to enable fence" := by
  have h1 := c3_amended_cleanup_behaviour okWorld okWorld
    "/sys/kernel/tracing" "virgltrace" []
    ["/sys/kernel/tracing", "events", "sched", "sched_switch", "enable"]
    "1" ""
  have h2 := c3_amended_cleanup_behaviour noSyncWorld noSyncWorld
    "/sys/kernel/tracing" "virgltrace" ["fence"] [] ""
    "failed to enable fence"
  refine ⟨h1.1 (by decide), h1.2.2.1, ?_, ?_⟩
  · exact (h2.2.2.2 (by decide) (by decide) (by decide) (by decide)).1
  · exact (h2.2.2.2 (by decide) (by decide) (by decide) (by decide)).2

/-- The accessor state after one failing write to path a. -/
def c4FirstFail : TracerSt :=
  (TracerSt.new.path_write ["a"] (some ErrKind.notFound) none).1

/-- A second failing write, to path b, issued after the first failure
was latched. -/
def c4SecondFail : TracerSt × List FsOp :=
  c4FirstFail.path_write ["b"] (some ErrKind.permissionDenied) none

/-- Claim C4, counterexample: two consecutive failing writes through
the accessor leave the latch holding the second (kind, path) pair,
not the first, and the second call still performs its File::create
system call although the latch was already set — so the latch is not
set at most once and further I/O is not prevented. -/
theorem c4_counterexample :
    c4FirstFail.has_err = true ∧
    c4FirstFail.lastErrPath = some ["a"] ∧
    c4SecondFail.1.lastErrPath = some ["b"] ∧
    c4SecondFail.1.lastErrKind = some ErrKind.permissionDenied ∧
    FsOp.createF ["b"] ∈ c4SecondFail.2 := by
  decide

/-- Claim C4, amended: the accessor never raises — every operation
returns a new state, recording the classified (kind, path) of a
failure in the latch, which is overwritten on each new failure and
therefore holds the most recent one; the accessor itself performs
its system calls unconditionally, whatever the current latch, and a
failed read returns the empty string. -/
theorem c4_amended_accessor_latch :
    ∀ (t : TracerSt) (p : List String) (k : ErrKind)
      (cr wr : Option ErrKind) (rr : Except ErrKind String),
      ((t.path_write p none none).1 = t) ∧
      ((t.path_write p (some k) wr).1.lastErrKind = some k) ∧
      ((t.path_write p (some k) wr).1.lastErrPath = some p) ∧
      ((t.path_write p none (some k)).1.lastErrKind = some k) ∧
      ((t.path_write p none (some k)).1.lastErrPath = some p) ∧
      (FsOp.createF p ∈ (t.path_write p cr wr).2) ∧
      ((t.path_truncate p (some k)).1.lastErrKind = some k) ∧
      (FsOp.createF p ∈ (t.path_truncate p cr).2) ∧
      ((t.path_read p (some k) rr).2.1 = "") ∧
      ((t.path_read p none (Except.error k)).2.1 = "") ∧
      ((t.path_read p (some k) rr).1.lastErrKind = some k) ∧
      (FsOp.openF p ∈ (t.path_read p cr rr).2.2) := by
  intro t p k cr wr rr
  refine ⟨rfl, ?_, ?_, rfl, rfl, ?_, rfl, ?_, ?_, rfl, ?_, ?_⟩
  · cases wr <;> rfl
  · cases wr <;> rfl
  · cases cr with
    | none =>
      cases wr with
      | none => exact List.mem_cons_self _ _
      | some k2 => exact List.mem_cons_self _ _
    | some k2 => exact List.mem_cons_self _ _
  · cases cr with
    | none => exact List.mem_cons_self _ _
    | some k2 => exact List.mem_cons_self _ _
  · cases rr <;> rfl
  · cases rr <;> rfl
  · cases cr with
    | none =>
      cases rr with
      | error k2 => exact List.mem_cons_self _ _
      | ok s => exact List.mem_cons_self _ _
    | some k2 => exact List.mem_cons_self _ _

/-- Claim C5, counterexample: for trace_clock content
"boot mono [global]" (global bracketed as active) the code selects
boot, which is not the active clock, and issues exactly one write of
boot — not the zero writes the claim asserts. -/
theorem c5_counterexample :
    set_trace_clock_plan "boot mono [global]" = some ["boot"] ∧
    ¬ set_trace_clock_plan "boot mono [global]" = some [] := by
  decide

/-- Claim C5, amended: clock selection scans for the first of boot,
mono, global to occur in the content and writes it back only when
that selected clock itself is not bracket-delimited as active: for
"boot mono global" it issues exactly one write of boot; for
"[boot] mono global" (boot already active) it issues zero writes;
for "boot mono [global]" it still issues one write of boot, since the
selected clock boot is not the active one. -/
theorem c5_amended_clock_selection :
    set_trace_clock_plan "boot mono global" = some ["boot"] ∧
    set_trace_clock_plan "[boot] mono global" = some [] ∧
    set_trace_clock_plan "boot mono [global]" = some ["boot"] ∧
    set_trace_clock_plan "mono [global]" = some ["mono"] ∧
    set_trace_clock_plan "[mono] global" = some [] := by
  decide

/-- Claim C6, counterexample: the capture wait of fn main is the
printed banner followed by a plain five-second sleep; no
interrupt-handler installation occurs anywhere in any run of main —
the interruptible sleep of src/sleep.rs is never called — so the
claim that the capture wait installs a handler for its duration and
returns early on an interrupt is false of the program. -/
theorem c6_counterexample :
    (mainRun okWorld "virgltrace" []).capture =
      [Act.print "tracing for 5 secs...", Act.sleepSecs 5] ∧
    ((mainRun okWorld "virgltrace" []).trace).contains
      (Act.sleepSecs 5) = true ∧
    ((mainRun okWorld "virgltrace" []).trace).contains
      Act.installIntHandler = false ∧
    (mainRun okWorld "virgltrace" []).panicMsg = none := by
  decide

/-- Claim C6, amended: the program's capture wait is a fixed,
uninterruptible five-second sleep, and no run of fn main installs or
restores an interrupt handler; the interruptible sleep routine of
src/sleep.rs — which fn main never calls — does install the handler,
perform one timed condition-variable wait, and restore the platform
default immediately after, with an identical action sequence whether
the wait was interrupted early or timed out. -/
theorem c6_amended_capture_and_sleep :
    ∀ (secs : Nat) (i1 i2 : Bool) (w : World) (argv : String)
      (args : List String),
      sleepActs secs i1 = sleepActs secs i2 ∧
      sleepActs secs i1 =
        [Act.installIntHandler, Act.condvarWait secs,
         Act.restoreIntHandler] ∧
      captureActs = [Act.print "tracing for 5 secs...", Act.sleepSecs 5] ∧
      ((mainRun w argv args).trace).contains Act.installIntHandler
        = false ∧
      ((mainRun w argv args).trace).contains Act.restoreIntHandler
        = false := by
  intro secs i1 i2 w argv args
  refine ⟨rfl, rfl, rfl, ?_, ?_⟩
  · exact (all_main_acts_no_handler _ (mainRun_main_acts w argv args)).1
  · exact (all_main_acts_no_handler _ (mainRun_main_acts w argv args)).2

/-- Claim C7, counterexample: when no tracefs candidate exists, the
process panics with the bare message "failed to locate tracefs" and
performs no action at all: the output names neither a NotFound
classification nor either attempted path. -/
theorem c7_counterexample :
    (mainRun noFsWorld "virgltrace" []).panicMsg =
      some "failed to locate tracefs" ∧
    (mainRun noFsWorld "virgltrace" []).trace = [] ∧
    str_contains "failed to locate tracefs" "NotFound" = false ∧
    str_contains "failed to locate tracefs" "/sys/kernel/tracing"
      = false ∧
    str_contains "failed to locate tracefs" "/sys/kernel/debug/tracing"
      = false := by
  decide

/-- Claim C7, amended: locating the tracing filesystem returns the
first of the ordered candidates whose trace file exists, always
preferring the earlier entry; when no candidate qualifies, the
process exits non-zero before any write occurs, but the panic
message is the bare "failed to locate tracefs" with no error-kind
classification and no attempted path. -/
theorem c7_amended_tracefs_location :
    ∀ (w : World) (argv : String) (args : List String),
      (w.pathExists ["/sys/kernel/tracing", "trace"] = true →
        find_tracefs w = some "/sys/kernel/tracing") ∧
      (w.pathExists ["/sys/kernel/tracing", "trace"] = false →
        w.pathExists ["/sys/kernel/debug/tracing", "trace"] = true →
        find_tracefs w = some "/sys/kernel/debug/tracing") ∧
      (w.pathExists ["/sys/kernel/tracing", "trace"] = false →
        w.pathExists ["/sys/kernel/debug/tracing", "trace"] = false →
        find_tracefs w = none) ∧
      (find_tracefs w = none → args.contains "-h" = false →
        (mainRun w argv args).trace = [] ∧
        (mainRun w argv args).panicMsg = some "failed to locate tracefs" ∧
        (mainRun w argv args).exitCode = 101) := by
  intro w argv args
  refine ⟨?_, ?_, ?_, ?_⟩
  · intro h1
    simp [find_tracefs, tracefs_dirs, List.find?, h1]
  · intro h1 h2
    simp [find_tracefs, tracefs_dirs, List.find?, h1, h2]
  · intro h1 h2
    simp [find_tracefs, tracefs_dirs, List.find?, h1, h2]
  · intro hft hh
    unfold mainRun
    simp only [hh, Bool.false_eq_true, if_false, hft]
    simp [MainRun.trace, MainRun.exitCode]

/-- Witness for the amended claim C7: each location rule at a
concrete world, and the no-write panic on the world with no
tracefs. -/
theorem c7_witness :
    find_tracefs okWorld = some "/sys/kernel/tracing" ∧
    find_tracefs debugOnlyWorld = some "/sys/kernel/debug/tracing" ∧
    find_tracefs noFsWorld = none ∧
    (mainRun noFsWorld "virgltrace" []).trace = [] ∧
    (mainRun noFsWorld "virgltrace" []).panicMsg =
      some "failed to locate tracefs" ∧
    (mainRun noFsWorld "virgltrace" []).exitCode = 101 := by
  have h1 := c7_amended_tracefs_location okWorld "virgltrace" []
  have h2 := c7_amended_tracefs_location debugOnlyWorld "virgltrace" []
  have h3 := c7_amended_tracefs_location noFsWorld "virgltrace" []
  have h4 := (h3.2.2.2 (h3.2.2.1 (by decide) (by decide)) (by decide))
  exact ⟨h1.1 (by decide), h2.2.1 (by decide) (by decide),
    h3.2.2.1 (by decide) (by decide), h4.1, h4.2.1, h4.2.2⟩

/-- Claim C8: in implicit mode (no command-line arguments), every
enable-file write the whole enable pass performs is the enable path
of some catalog event whose subsystem directory exists at probe
time — the pass never touches a path whose subsystem directory is
missing. -/
theorem c8_implicit_toggles_only_existing_subsystems :
    ∀ (w : World) (root : String) (p : List String) (v : String),
      Act.fwrite p v ∈ (enableLoop w root [] CATEGORIES).1 →
      ∃ c e, c ∈ CATEGORIES ∧ e ∈ c.events ∧
        p = eventEnablePath root e ∧
        w.pathExists (subsysPath root e) = true := by
  intro w root p v h
  obtain ⟨c, hc, hmem⟩ :=
    enableLoop_fwrite_from_category w root [] CATEGORIES p v h
  obtain ⟨e, he, hp, hpe⟩ :=
    enableCatGo_fwrite_subsys w root true c.events none p v hmem
  exact ⟨c, e, hc, he, hp, hpe⟩

/-- Witness for claim C8 at the all-available kernel and the
sched_switch enable write of the implicit pass. -/
theorem c8_witness :
    ∃ c e, c ∈ CATEGORIES ∧ e ∈ c.events ∧
      ["/sys/kernel/tracing", "events", "sched", "sched_switch",
       "enable"] = eventEnablePath "/sys/kernel/tracing" e ∧
      okWorld.pathExists (subsysPath "/sys/kernel/tracing" e) = true :=
  c8_implicit_toggles_only_existing_subsystems okWorld
    "/sys/kernel/tracing"
    ["/sys/kernel/tracing", "events", "sched", "sched_switch", "enable"]
    "1" (by decide)

/-- Claim C9, counterexample: invoking with -h prints the usage text
and the category list but the process returns normally, exiting with
status zero — not the non-zero status the claim asserts. -/
theorem c9_counterexample :
    (mainRun noFsWorld "virgltrace" ["-h"]).exitCode = 0 ∧
    (mainRun noFsWorld "virgltrace" ["-h"]).panicMsg = none ∧
    (mainRun noFsWorld "virgltrace" ["-h"]).usage =
      usageActs "virgltrace" ∧
    Act.print "Available categories are:" ∈
      (mainRun noFsWorld "virgltrace" ["-h"]).usage ∧
    Act.print "  sched: scheduler-related events" ∈
      (mainRun noFsWorld "virgltrace" ["-h"]).usage := by
  decide

/-- Claim C9, amended: invoking with -h prints the usage line and
the list of available categories with their descriptions, performs
nothing else, and exits with status zero. -/
theorem c9_amended_usage_exits_zero :
    ∀ (w : World) (argv : String) (args : List String),
      args.contains "-h" = true →
      mainRun w argv args = { usage := usageActs argv } ∧
      (mainRun w argv args).exitCode = 0 ∧
      Act.print "Available categories are:" ∈
        (mainRun w argv args).usage := by
  intro w argv args h
  have hmem : "-h" ∈ args := by simpa using h
  have hm : mainRun w argv args = { usage := usageActs argv } := by
    unfold mainRun
    simp [hmem]
  refine ⟨hm, ?_, ?_⟩
  · rw [hm]
    rfl
  · rw [hm]
    simp [usageActs]

/-- Witness for the amended claim C9 on a concrete -h invocation. -/
theorem c9_witness :
    mainRun okWorld "virgltrace" ["-h"] =
      { usage := usageActs "virgltrace" } ∧
    (mainRun okWorld "virgltrace" ["-h"]).exitCode = 0 ∧
    Act.print "Available categories are:" ∈
      (mainRun okWorld "virgltrace" ["-h"]).usage :=
  c9_amended_usage_exits_zero okWorld "virgltrace" ["-h"] (by decide)

/-- Claim C10: when the trace_clock content read by set_trace_clock
contains none of the substrings boot, mono, global, the function
panics (the plan is none) instead of returning an error value; and a
normal return (some plan) forces at least one preferred clock name
to occur in the content. -/
theorem c10_trace_clock_requires_known_clock :
    ∀ val : String,
      (str_contains val "boot" = false → str_contains val "mono" = false →
        str_contains val "global" = false →
        set_trace_clock_plan val = none) ∧
      (∀ ws, set_trace_clock_plan val = some ws →
        (str_contains val "boot" = true ∨ str_contains val "mono" = true ∨
         str_contains val "global" = true)) := by
  intro val
  constructor
  · intro h1 h2 h3
    simp [set_trace_clock_plan, findPreferred, preferred_clocks, h1, h2, h3]
  · intro ws h
    by_cases h1 : str_contains val "boot"
    · exact Or.inl h1
    · by_cases h2 : str_contains val "mono"
      · exact Or.inr (Or.inl h2)
      · by_cases h3 : str_contains val "global"
        · exact Or.inr (Or.inr h3)
        · exfalso
          simp only [Bool.not_eq_true] at h1 h2 h3
          simp [set_trace_clock_plan, findPreferred, preferred_clocks,
            h1, h2, h3] at h

/-- Witness for claim C10: a content with no preferred clock panics,
and a normal return exhibits a preferred clock in the content. -/
theorem c10_witness :
    set_trace_clock_plan "local counter" = none ∧
    (str_contains "boot mono global" "boot" = true ∨
     str_contains "boot mono global" "mono" = true ∨
     str_contains "boot mono global" "global" = true) := by
  have h1 := (c10_trace_clock_requires_known_clock "local counter").1
    (by decide) (by decide) (by decide)
  have h2 := (c10_trace_clock_requires_known_clock "boot mono global").2
    ["boot"] (by decide)
  exact ⟨h1, h2⟩

end VT

